import Mathlib

/-!
Verification of the twopc commit-reveal client against its design document.

The development shallowly embeds the two finite state machines of the client
(the commit-reveal protocol machine of `assets/app.ts` and the session
transport machine of the `Mailbox` class) together with the hex codec of
`assets/utils.ts` and the cryptographic wrapper functions of `assets/crypto.ts`.
Platform primitives (Web Crypto AES-GCM, X25519, SHA-256, TextEncoder /
TextDecoder, JSON) are not part of the repository; they appear as explicit
function parameters, and the properties the design assumes of them (AEAD
round-trip, DH symmetry, serializer round-trip) appear as hypotheses that the
accompanying witness theorems discharge on concrete instances.
-/

set_option maxHeartbeats 1000000
set_option maxRecDepth 8000

namespace TwoPC

/-! ## Hex codec (src/assets/utils.ts) -/

/-- One byte rendered as in `toHex`: `b.toString(16).padStart(2, "0")`.
For a `Uint8Array` element (`b < 256`) this is exactly the two lowercase hex
digits of `b`. -/
def byteToHex (b : Nat) : String := ⟨[Nat.digitChar (b / 16), Nat.digitChar (b % 16)]⟩

/-- `toHex`: `Array.from(bytes, b => b.toString(16).padStart(2, "0")).join("")`.
Byte buffers are modelled as `List Nat` with entries below 256 (the
`Uint8Array` element invariant). Joining with the empty separator is right-fold
concatenation of the per-byte strings. -/
def toHex : List Nat → String
  | [] => ""
  | b :: bs => byteToHex b ++ toHex bs

/-- The value `parseInt` assigns to one hex digit (digits, lowercase and
uppercase letters). -/
def hexDigitVal (c : Char) : Option Nat :=
  if '0' ≤ c ∧ c ≤ '9' then some (c.toNat - '0'.toNat)
  else if 'a' ≤ c ∧ c ≤ 'f' then some (c.toNat - 'a'.toNat + 10)
  else if 'A' ≤ c ∧ c ≤ 'F' then some (c.toNat - 'A'.toNat + 10)
  else none

/-- `parseInt(s, 16)` on a two-character chunk, coerced into a `Uint8Array`
slot: an invalid leading digit yields NaN, which the typed array stores as 0;
a valid digit followed by an invalid one parses just the one-digit prefix. -/
def parseHexPair (c1 c2 : Char) : Nat :=
  match hexDigitVal c1, hexDigitVal c2 with
  | some v1, some v2 => 16 * v1 + v2
  | some v1, none => v1
  | none, _ => 0

/-- `fromHex` consumes the string two characters at a time
(`hex.substring(i, i + 2)` with `i += 2`). An odd-length input makes
`new Uint8Array(hex.length / 2)` throw (non-integral length), modelled as
`none`. -/
def fromHexChars : List Char → Option (List Nat)
  | [] => some []
  | [_] => none
  | c1 :: c2 :: rest => (fromHexChars rest).map (fun bs => parseHexPair c1 c2 :: bs)

/-- `fromHex(hex)` over the characters of the string. -/
def fromHex (s : String) : Option (List Nat) := fromHexChars s.data

/-! ## Commitment and message crypto wrappers (src/assets/crypto.ts) -/

/-- The commitment preimage `[message, random].join("\n")`: the message, the
fixed delimiter, then the random value. -/
def commitmentPreimage (message random : String) : String := message ++ "\n" ++ random

/-- `calculateCommitment(message, random)`: the SHA-256 digest (hex encoded,
over the UTF-8 bytes of the preimage) of `[message, random].join("\n")`.
The platform digest pipeline `toHex ∘ SHA-256 ∘ TextEncoder.encode` is the
abstract parameter `sha256hex`; the claims model it as injective. -/
def calculateCommitment (sha256hex : String → String) (message random : String) : String :=
  sha256hex (commitmentPreimage message random)

/-- The wire frame produced by `encryptMessage`. -/
structure Cryptogram where
  type : String
  iv : String
  ct : String
deriving DecidableEq, Repr

/-- `encryptMessage(key, msg)`: serialize `msg`, UTF-8 encode it, AES-GCM
encrypt it under `key` with the freshly sampled 96-bit `iv`, and hex encode
both the iv and the ciphertext. The AES-GCM cipher (`aeadEnc`), the JSON
serializer (`stringify`) and the text encoder (`utf8`) are platform
primitives passed as parameters; the fresh random nonce
`crypto.getRandomValues(new Uint8Array(12))` is the per-call input `iv`. -/
def encryptMessage {K M : Type} (aeadEnc : K → List Nat → List Nat → List Nat)
    (stringify : M → String) (utf8 : String → List Nat)
    (key : K) (iv : List Nat) (msg : M) : Cryptogram :=
  { type := "cryptogram"
    iv := toHex iv
    ct := toHex (aeadEnc key iv (utf8 (stringify msg))) }

/-- The byte length of the nonce buffer allocated by `encryptMessage`:
`new Uint8Array(12)`. -/
def ivByteLength : Nat := 12

/-- `decryptMessage(key, msg)`: hex-decode the iv and ciphertext, AES-GCM
decrypt (which fails closed, hence `Option`), UTF-8 decode and JSON-parse.
`aeadDec`, `utf8Dec` and `parseJson` are the platform primitives. -/
def decryptMessage {K M : Type} (aeadDec : K → List Nat → List Nat → Option (List Nat))
    (parseJson : String → Option M) (utf8Dec : List Nat → Option String)
    (key : K) (msg : Cryptogram) : Option M := do
  let iv ← fromHex msg.iv
  let ct ← fromHex msg.ct
  let pt ← aeadDec key iv ct
  let s ← utf8Dec pt
  parseJson s

/-! ## Session transport state machine (Mailbox) -/

namespace Mailbox

/-- `enum State` of the Mailbox. -/
inductive State where
  | START
  | KEYED
  | CONNECTED
  | GOT_HANDSHAKE
  | ESTABLISHED
  | ERROR
  | RECONNECT
  | FAIL
deriving DecidableEq, Repr, Fintype

/-- `enum Event` of the Mailbox. -/
inductive Event where
  | KeyGenerated
  | KeyGenerationFailed
  | WsOpen
  | WsClose
  | HandshakeRecieved
  | SessionEstablished
  | VerificationFailed
  | WsReset
deriving DecidableEq, Repr, Fintype

/-- One row of the transition table (`from` / `event` / `to` in the source). -/
structure Transition where
  src : State
  event : Event
  tgt : State
deriving DecidableEq, Repr

/-- The Mailbox transition table, row for row. -/
def transitions : List Transition := [
  ⟨.START, .KeyGenerated, .KEYED⟩,
  ⟨.START, .KeyGenerationFailed, .FAIL⟩,
  ⟨.KEYED, .WsOpen, .CONNECTED⟩,
  ⟨.KEYED, .WsClose, .KEYED⟩,
  ⟨.CONNECTED, .HandshakeRecieved, .GOT_HANDSHAKE⟩,
  ⟨.CONNECTED, .WsReset, .CONNECTED⟩,
  ⟨.CONNECTED, .WsClose, .RECONNECT⟩,
  ⟨.GOT_HANDSHAKE, .SessionEstablished, .ESTABLISHED⟩,
  ⟨.GOT_HANDSHAKE, .VerificationFailed, .FAIL⟩,
  ⟨.GOT_HANDSHAKE, .WsReset, .CONNECTED⟩,
  ⟨.GOT_HANDSHAKE, .WsClose, .RECONNECT⟩,
  ⟨.ESTABLISHED, .WsReset, .CONNECTED⟩,
  ⟨.ESTABLISHED, .HandshakeRecieved, .GOT_HANDSHAKE⟩,
  ⟨.ESTABLISHED, .WsClose, .RECONNECT⟩,
  ⟨.RECONNECT, .WsOpen, .CONNECTED⟩,
  ⟨.RECONNECT, .WsReset, .RECONNECT⟩,
  ⟨.RECONNECT, .WsClose, .RECONNECT⟩]

/-- `transitions.find((t) => t.from === this.state && t.event === event)`. -/
def findTransition (s : State) (e : Event) : Option Transition :=
  transitions.find? (fun t => t.src == s && t.event == e)

/-- `dispatch`: look the pair up in the table; a missing entry falls back to
the default row `{ from: this.state, event, to: State.ERROR }`. -/
def dispatch (s : State) (e : Event) : State :=
  match findTransition s e with
  | some t => t.tgt
  | none => State.ERROR

/-- External stimuli of one Mailbox run. The first six are the raw events the
environment produces (key generation outcome, socket callbacks, inbound
frames). `VerificationResult ok` is the completion of the `GOT_HANDSHAKE`
entry action `deriveSessionKey`, carrying the boolean returned by
`c.verifyPk(sharedSecret, peerSig, pk)`. -/
inductive Input where
  | KeyGenerated
  | KeyGenerationFailed
  | WsOpen
  | WsClose
  | HandshakeRecieved
  | WsReset
  | VerificationResult (ok : Bool)
deriving DecidableEq, Repr, Fintype

/-- The FSM event each input dispatches. `deriveSessionKey` dispatches
`SessionEstablished` when the signature verified and `VerificationFailed`
otherwise. -/
def Input.toEvent : Input → Event
  | .KeyGenerated => .KeyGenerated
  | .KeyGenerationFailed => .KeyGenerationFailed
  | .WsOpen => .WsOpen
  | .WsClose => .WsClose
  | .HandshakeRecieved => .HandshakeRecieved
  | .WsReset => .WsReset
  | .VerificationResult ok => if ok then .SessionEstablished else .VerificationFailed

/-- The transport state plus whether `this.sessionKey` has been assigned.
`deriveSessionKey` assigns the session key exactly on its `isOk` branch,
right before dispatching `SessionEstablished`. -/
structure Machine where
  st : State
  keyDerived : Bool
deriving DecidableEq, Repr

/-- One event-loop turn: dispatch the input's FSM event; record the session
key assignment when a verification completes successfully. -/
def step (m : Machine) (i : Input) : Machine :=
  { st := dispatch m.st i.toEvent
    keyDerived := m.keyDerived || (i == Input.VerificationResult true) }

/-- The constructor state: `state = State.START`, no session key. -/
def init : Machine := { st := State.START, keyDerived := false }

/-- Run the Mailbox over a sequence of inputs. -/
def run (is : List Input) : Machine := is.foldl step init

/-- `send(message)`: reject with `"Not established"` unless the state is
`ESTABLISHED`; otherwise encrypt under the current session key with the fresh
nonce `iv` and hand the frame to `ws.send`. -/
def send {K M : Type} (aeadEnc : K → List Nat → List Nat → List Nat)
    (stringify : M → String) (utf8 : String → List Nat)
    (st : State) (sessionKey : K) (iv : List Nat) (message : M) :
    Except String Cryptogram :=
  if st ≠ State.ESTABLISHED then Except.error "Not established"
  else Except.ok (encryptMessage aeadEnc stringify utf8 sessionKey iv message)

/-- The observable handler/closedness state of one WebSocket handle: which of
the four callbacks are attached, and whether `close()` has been called on it. -/
structure WsHandle where
  onopen : Bool
  onclose : Bool
  onerror : Bool
  onmessage : Bool
  closed : Bool
deriving DecidableEq, Repr

/-- The connection-facing fields of a Mailbox: the current handle (`this.ws`,
`none` while reconnecting) and whether a `setTimeout(() => openWebSocket(), 2000)`
reconnection is pending (its timer id is never stored, so nothing can cancel
it). -/
structure Conn where
  ws : Option WsHandle
  reconnectPending : Bool
deriving DecidableEq, Repr

/-- `close()`: when a handle is live, null `onopen`, `onclose` and `onerror`
and call `ws.close()`. `onmessage` is not touched, `this.ws` is kept, and the
pending-reconnect timer is not touched. When `this.ws` is null the whole body
is skipped. -/
def close (c : Conn) : Conn :=
  match c.ws with
  | some w => { c with
      ws := some { w with onopen := false, onclose := false, onerror := false, closed := true } }
  | none => c

/-- The `RECONNECT` entry action: detach `onopen`/`onclose`/`onerror` of the
old handle, close it, set `this.ws = null`, and schedule `openWebSocket` after
the 2-second backoff. -/
def enterReconnect (_c : Conn) : Conn := { ws := none, reconnectPending := true }

/-- The reconnect timer firing: `openWebSocket()` replaces the handle with a
fresh WebSocket carrying all four callbacks. -/
def reconnectTimerFires (_c : Conn) : Conn :=
  { ws := some { onopen := true, onclose := true, onerror := true, onmessage := true, closed := false }
    reconnectPending := false }

end Mailbox

/-! ## Commit-reveal protocol state machine (src/assets/app.ts) -/

/-- `enum AppState`, in source order. -/
inductive AppState where
  | BOTH_COMMITTED
  | BOTH_REVEALED
  | CAN_SEND_COMMITMENT
  | COMMITMENT_SENT
  | CONNECTED
  | FAIL
  | I_COMMITTED
  | I_REVEALED
  | SEND_COMMITMENT_FIRST
  | SEND_COMMITMENT_SECOND
  | SHARED_SECRET
  | START
  | THEY_COMMITTED
  | THEY_REVEALED
deriving DecidableEq, Repr, Fintype

/-- The protocol machine's `enum Event` (named `AppEvent` here to keep it
apart from the Mailbox event enum). -/
inductive AppEvent where
  | SharedSecretSet
  | PeerConnectionEstablished
  | Committed
  | CommitmentSent
  | CommitmentRecieved
  | RevealSent
  | RevealRecieved
  | Ooops
deriving DecidableEq, Repr, Fintype

/-- One row of the protocol transition table. -/
structure AppTransition where
  src : AppState
  event : AppEvent
  tgt : AppState
deriving DecidableEq, Repr

/-- The protocol transition table of `app.ts`, row for row. -/
def appTransitions : List AppTransition := [
  ⟨.START, .SharedSecretSet, .SHARED_SECRET⟩,
  ⟨.SHARED_SECRET, .Committed, .CAN_SEND_COMMITMENT⟩,
  ⟨.SHARED_SECRET, .PeerConnectionEstablished, .CONNECTED⟩,
  ⟨.CAN_SEND_COMMITMENT, .PeerConnectionEstablished, .SEND_COMMITMENT_FIRST⟩,
  ⟨.SEND_COMMITMENT_FIRST, .CommitmentSent, .I_COMMITTED⟩,
  ⟨.CONNECTED, .Committed, .SEND_COMMITMENT_FIRST⟩,
  ⟨.CONNECTED, .CommitmentRecieved, .THEY_COMMITTED⟩,
  ⟨.I_COMMITTED, .CommitmentRecieved, .BOTH_COMMITTED⟩,
  ⟨.THEY_COMMITTED, .Committed, .SEND_COMMITMENT_SECOND⟩,
  ⟨.SEND_COMMITMENT_SECOND, .CommitmentSent, .BOTH_COMMITTED⟩,
  ⟨.BOTH_COMMITTED, .RevealSent, .I_REVEALED⟩,
  ⟨.BOTH_COMMITTED, .RevealRecieved, .THEY_REVEALED⟩,
  ⟨.I_REVEALED, .RevealRecieved, .BOTH_REVEALED⟩,
  ⟨.THEY_REVEALED, .RevealSent, .BOTH_REVEALED⟩]

/-- `transitions.find((t) => t.from === state.appState && t.event === event)`. -/
def findAppTransition (s : AppState) (e : AppEvent) : Option AppTransition :=
  appTransitions.find? (fun t => t.src == s && t.event == e)

/-- `dispatch` of `app.ts`: table lookup, defaulting to the row
`{ from: state.appState, event, to: AppState.FAIL }`. -/
def appDispatch (s : AppState) (e : AppEvent) : AppState :=
  match findAppTransition s e with
  | some t => t.tgt
  | none => AppState.FAIL

/-- Run the protocol machine from an arbitrary state. -/
def appRunFrom (s : AppState) (es : List AppEvent) : AppState := es.foldl appDispatch s

/-- Run the protocol machine from its initial state
(`update({ appState: AppState.START })`). -/
def appRun (es : List AppEvent) : AppState := appRunFrom AppState.START es

/-- The states whose registered `onEnter` handler sends a `reveal` frame:
only `onEnter(AppState.BOTH_COMMITTED)` calls
`mailbox.send({ type: "reveal", ... })`. -/
def sendsReveal : AppState → Bool
  | .BOTH_COMMITTED => true
  | _ => false

/-- The commitment-traffic bookkeeping the transition table maintains:
for each state, the number of `CommitmentSent` and `CommitmentRecieved`
events every trace reaching that state from `START` must contain
(`none` for the two dead states where no constraint is provable:
`FAIL` absorbs everything, `COMMITMENT_SENT` has no incoming row either). -/
def commitCounts : AppState → Option (Nat × Nat)
  | .START => some (0, 0)
  | .SHARED_SECRET => some (0, 0)
  | .CAN_SEND_COMMITMENT => some (0, 0)
  | .CONNECTED => some (0, 0)
  | .SEND_COMMITMENT_FIRST => some (0, 0)
  | .I_COMMITTED => some (1, 0)
  | .THEY_COMMITTED => some (0, 1)
  | .SEND_COMMITMENT_SECOND => some (0, 1)
  | .BOTH_COMMITTED => some (1, 1)
  | .I_REVEALED => some (1, 1)
  | .THEY_REVEALED => some (1, 1)
  | .BOTH_REVEALED => some (1, 1)
  | .COMMITMENT_SENT => none
  | .FAIL => none

/-- The per-state invariant on the number of commitment events seen so far. -/
def commitInv (s : AppState) (sent recv : Nat) : Prop :=
  match commitCounts s with
  | some p => sent = p.1 ∧ recv = p.2
  | none => True

/-! ## Lemmas: protocol-machine trace invariant -/

/-- Every row of the (completed) transition function moves the expected
commitment counters exactly by the event being consumed, and never moves
from an unconstrained state into a constrained one. Finite check over the
whole table. -/
lemma appStep_preserves_counts : ∀ (s : AppState) (e : AppEvent),
    (match commitCounts s, commitCounts (appDispatch s e) with
      | _, none => true
      | none, some _ => false
      | some p, some q =>
          (q.1 == p.1 + if e = AppEvent.CommitmentSent then 1 else 0) &&
          (q.2 == p.2 + if e = AppEvent.CommitmentRecieved then 1 else 0)) = true := by
  decide

lemma commitInv_step (s : AppState) (e : AppEvent) (sent recv : Nat)
    (h : commitInv s sent recv) :
    commitInv (appDispatch s e)
      (sent + if e = AppEvent.CommitmentSent then 1 else 0)
      (recv + if e = AppEvent.CommitmentRecieved then 1 else 0) := by
  have hp := appStep_preserves_counts s e
  unfold commitInv at h ⊢
  cases hcs : commitCounts s <;>
    cases hct : commitCounts (appDispatch s e) <;>
      simp_all

lemma commitInv_congr (s : AppState) (a b a2 b2 : Nat)
    (ha : a = a2) (hb : b = b2) (h : commitInv s a b) : commitInv s a2 b2 :=
  ha ▸ hb ▸ h

lemma commitInv_appRunFrom : ∀ (es : List AppEvent) (s : AppState) (sent recv : Nat),
    commitInv s sent recv →
    commitInv (appRunFrom s es)
      (sent + es.count AppEvent.CommitmentSent)
      (recv + es.count AppEvent.CommitmentRecieved) := by
  intro es
  induction es with
  | nil => intro s sent recv h; simpa [appRunFrom] using h
  | cons e es ih =>
    intro s sent recv h
    have h2 := ih (appDispatch s e) _ _ (commitInv_step s e sent recv h)
    have hs : appRunFrom s (e :: es) = appRunFrom (appDispatch s e) es := rfl
    rw [hs, List.count_cons, List.count_cons]
    simp only [beq_iff_eq]
    exact commitInv_congr _ _ _ _ _ (by omega) (by omega) h2

lemma commitInv_appRun (es : List AppEvent) :
    commitInv (appRun es) (es.count AppEvent.CommitmentSent)
      (es.count AppEvent.CommitmentRecieved) := by
  have h := commitInv_appRunFrom es AppState.START 0 0 (by simp [commitInv, commitCounts])
  simpa [appRun] using h

/-! ## Claim theorems: protocol machine -/

/-- Claim C1: for every interleaving of protocol events, the commit-reveal
machine's reveal-sending entry action belongs only to `BOTH_COMMITTED`, and
every trace that reaches a reveal-sending state has already seen both a
`CommitmentSent` and a `CommitmentRecieved` event; a reveal before both
commitments exist is unreachable. -/
theorem reveal_only_after_both_commitments (es : List AppEvent)
    (h : sendsReveal (appRun es) = true) :
    appRun es = AppState.BOTH_COMMITTED ∧
      AppEvent.CommitmentSent ∈ es ∧ AppEvent.CommitmentRecieved ∈ es := by
  have hbc : appRun es = AppState.BOTH_COMMITTED := by
    revert h; cases hr : appRun es <;> simp [sendsReveal]
  have hinv := commitInv_appRun es
  rw [hbc] at hinv
  simp only [commitInv, commitCounts] at hinv
  refine ⟨hbc, ?_, ?_⟩
  · exact List.count_pos_iff.mp (by omega)
  · exact List.count_pos_iff.mp (by omega)

/-- Witness for C1: a concrete commit-second trace reaching the
reveal-sending state, with both commitment events present. -/
theorem reveal_only_after_both_commitments_witness :
    appRun [AppEvent.SharedSecretSet, AppEvent.PeerConnectionEstablished,
      AppEvent.CommitmentRecieved, AppEvent.Committed, AppEvent.CommitmentSent] =
        AppState.BOTH_COMMITTED ∧
    AppEvent.CommitmentSent ∈ [AppEvent.SharedSecretSet,
      AppEvent.PeerConnectionEstablished, AppEvent.CommitmentRecieved,
      AppEvent.Committed, AppEvent.CommitmentSent] ∧
    AppEvent.CommitmentRecieved ∈ [AppEvent.SharedSecretSet,
      AppEvent.PeerConnectionEstablished, AppEvent.CommitmentRecieved,
      AppEvent.Committed, AppEvent.CommitmentSent] :=
  reveal_only_after_both_commitments _ (by decide)

/-- Claim C6: every event trace that takes the protocol machine from `START`
to `BOTH_COMMITTED` contains exactly one `CommitmentSent` and exactly one
`CommitmentRecieved` event. -/
theorem both_committed_exactly_one_commitment_each (es : List AppEvent)
    (h : appRun es = AppState.BOTH_COMMITTED) :
    es.count AppEvent.CommitmentSent = 1 ∧ es.count AppEvent.CommitmentRecieved = 1 := by
  have hinv := commitInv_appRun es
  rw [h] at hinv
  simpa [commitInv, commitCounts] using hinv

/-- Witness for C6: a concrete commit-first trace reaching `BOTH_COMMITTED`
with one commitment sent and one received. -/
theorem both_committed_exactly_one_commitment_each_witness :
    [AppEvent.SharedSecretSet, AppEvent.Committed, AppEvent.PeerConnectionEstablished,
      AppEvent.CommitmentSent, AppEvent.CommitmentRecieved].count
        AppEvent.CommitmentSent = 1 ∧
    [AppEvent.SharedSecretSet, AppEvent.Committed, AppEvent.PeerConnectionEstablished,
      AppEvent.CommitmentSent, AppEvent.CommitmentRecieved].count
        AppEvent.CommitmentRecieved = 1 :=
  both_committed_exactly_one_commitment_each _ (by decide)

/-- Claim C7: from `SHARED_SECRET`, the local-commit event and the
transport-established event commute — both orders land in the single
`SEND_COMMITMENT_FIRST` state — and both send paths (commit-first through
`SEND_COMMITMENT_FIRST`, commit-second through `THEY_COMMITTED` and
`SEND_COMMITMENT_SECOND`) reach the same `BOTH_COMMITTED` state once both
commitments have been exchanged. -/
theorem commit_connect_orders_converge :
    appDispatch (appDispatch AppState.SHARED_SECRET AppEvent.Committed)
        AppEvent.PeerConnectionEstablished = AppState.SEND_COMMITMENT_FIRST ∧
    appDispatch (appDispatch AppState.SHARED_SECRET AppEvent.PeerConnectionEstablished)
        AppEvent.Committed = AppState.SEND_COMMITMENT_FIRST ∧
    appRunFrom AppState.SEND_COMMITMENT_FIRST
        [AppEvent.CommitmentSent, AppEvent.CommitmentRecieved] = AppState.BOTH_COMMITTED ∧
    appRunFrom AppState.CONNECTED
        [AppEvent.CommitmentRecieved, AppEvent.Committed, AppEvent.CommitmentSent] =
      AppState.BOTH_COMMITTED := by
  decide

/-! ## Lemmas: transport machine -/

lemma step_established_iff : ∀ (st : Mailbox.State) (i : Mailbox.Input),
    Mailbox.dispatch st i.toEvent = Mailbox.State.ESTABLISHED ↔
      (st = Mailbox.State.GOT_HANDSHAKE ∧ i = Mailbox.Input.VerificationResult true) := by
  decide

lemma run_concat (is : List Mailbox.Input) (i : Mailbox.Input) :
    Mailbox.run (is ++ [i]) = Mailbox.step (Mailbox.run is) i := by
  simp [Mailbox.run, List.foldl_append]

/-! ## Claim theorems: transport machine -/

/-- Claim C2: the transport machine reaches `ESTABLISHED` only as the
immediate result of `deriveSessionKey` completing with `verifyPk` returning
true while in `GOT_HANDSHAKE` (the current epoch); a trace without a
successful verification never reaches `ESTABLISHED` and never assigns the
session key; a failing verification in `GOT_HANDSHAKE` drives the machine to
`FAIL`, and a failing verification can never produce `ESTABLISHED`. -/
theorem established_requires_verified_handshake (is : List Mailbox.Input) :
    ((Mailbox.run is).st = Mailbox.State.ESTABLISHED →
      ∃ p, is = p ++ [Mailbox.Input.VerificationResult true] ∧
        (Mailbox.run p).st = Mailbox.State.GOT_HANDSHAKE) ∧
    (Mailbox.Input.VerificationResult true ∉ is →
      (Mailbox.run is).st ≠ Mailbox.State.ESTABLISHED ∧
        (Mailbox.run is).keyDerived = false) ∧
    ((Mailbox.run is).st = Mailbox.State.GOT_HANDSHAKE →
      (Mailbox.run (is ++ [Mailbox.Input.VerificationResult false])).st =
        Mailbox.State.FAIL) ∧
    (Mailbox.run (is ++ [Mailbox.Input.VerificationResult false])).st ≠
      Mailbox.State.ESTABLISHED := by
  refine ⟨?_, ?_, ?_, ?_⟩
  · intro h
    rcases List.eq_nil_or_concat is with rfl | ⟨p, i, rfl⟩
    · exact absurd h (by decide)
    · rw [List.concat_eq_append] at h ⊢
      rw [run_concat] at h
      have h2 := (step_established_iff (Mailbox.run p).st i).mp h
      exact ⟨p, by rw [h2.2], h2.1⟩
  · induction is using List.reverseRecOn with
    | nil => intro _; exact ⟨by decide, rfl⟩
    | append_singleton p i ih =>
      intro hni
      have hnp : Mailbox.Input.VerificationResult true ∉ p :=
        fun hm => hni (List.mem_append_left _ hm)
      have hne : i ≠ Mailbox.Input.VerificationResult true :=
        fun he => hni (by simp [he])
      obtain ⟨ihs, ihk⟩ := ih hnp
      constructor
      · rw [run_concat]
        intro h
        exact hne ((step_established_iff (Mailbox.run p).st i).mp h).2
      · rw [run_concat]
        show ((Mailbox.run p).keyDerived ||
          (i == Mailbox.Input.VerificationResult true)) = false
        simp [ihk, hne]
  · intro h
    rw [run_concat]
    show Mailbox.dispatch (Mailbox.run is).st
      (Mailbox.Input.VerificationResult false).toEvent = Mailbox.State.FAIL
    rw [h]
    decide
  · rw [run_concat]
    show Mailbox.dispatch (Mailbox.run is).st
        (Mailbox.Input.VerificationResult false).toEvent ≠ Mailbox.State.ESTABLISHED
    have hno : ∀ st, Mailbox.dispatch st
        (Mailbox.Input.VerificationResult false).toEvent ≠
          Mailbox.State.ESTABLISHED := by decide
    exact hno _

/-- Witness for C2: a concrete run key-gen → socket open → handshake →
successful verification reaches `ESTABLISHED`, and decomposes as a prefix
ending in `GOT_HANDSHAKE` followed by the successful verification. -/
theorem established_requires_verified_handshake_witness :
    ∃ p, [Mailbox.Input.KeyGenerated, Mailbox.Input.WsOpen,
        Mailbox.Input.HandshakeRecieved, Mailbox.Input.VerificationResult true] =
          p ++ [Mailbox.Input.VerificationResult true] ∧
      (Mailbox.run p).st = Mailbox.State.GOT_HANDSHAKE :=
  (established_requires_verified_handshake _).1 (by decide)

/-- Claim C5: `send` rejects with the `"Not established"` condition in every
state other than `ESTABLISHED`; in `ESTABLISHED` it returns the encryption of
the payload under the current session key with the per-call nonce `iv`
(hex-transported in the `iv` field of the cryptogram frame), whose buffer is
`new Uint8Array(12)` — 96 bits. -/
theorem send_only_when_established {K M : Type}
    (aeadEnc : K → List Nat → List Nat → List Nat) (stringify : M → String)
    (utf8 : String → List Nat) (st : Mailbox.State) (sessionKey : K)
    (iv : List Nat) (message : M) :
    (st ≠ Mailbox.State.ESTABLISHED →
      Mailbox.send aeadEnc stringify utf8 st sessionKey iv message =
        Except.error "Not established") ∧
    (st = Mailbox.State.ESTABLISHED →
      Mailbox.send aeadEnc stringify utf8 st sessionKey iv message =
        Except.ok (encryptMessage aeadEnc stringify utf8 sessionKey iv message)) ∧
    (encryptMessage aeadEnc stringify utf8 sessionKey iv message).iv = toHex iv ∧
    (encryptMessage aeadEnc stringify utf8 sessionKey iv message).type = "cryptogram" ∧
    8 * ivByteLength = 96 := by
  refine ⟨fun h => ?_, fun h => ?_, rfl, rfl, rfl⟩
  · simp [Mailbox.send, h]
  · simp [Mailbox.send, h]

/-- Witness for C5: in state `CONNECTED` a concrete send is rejected with
`"Not established"`. -/
theorem send_only_when_established_witness :
    Mailbox.send (fun (_ : Nat) (_ : List Nat) (pt : List Nat) => pt)
      (fun (_ : Nat) => "m") (fun _ => ([] : List Nat))
      Mailbox.State.CONNECTED 0 [] 0 = Except.error "Not established" :=
  (send_only_when_established _ _ _ _ _ _ _).1 (by decide)

/-- Counterexample to C8 as stated: `(START, WsOpen)` has no row in the
transition table, and dispatching it lands in the terminal `ERROR` state,
which is a different enum member than `FAIL`. -/
theorem unmatched_dispatch_counterexample :
    Mailbox.findTransition Mailbox.State.START Mailbox.Event.WsOpen = none ∧
    Mailbox.dispatch Mailbox.State.START Mailbox.Event.WsOpen = Mailbox.State.ERROR ∧
    Mailbox.State.ERROR ≠ Mailbox.State.FAIL := by
  decide

/-- Claim C8 (amended): an unmatched (state, event) pair drives the transport
machine to the terminal `ERROR` state — not to `FAIL`, which the table
reserves for key-generation and verification failures — and `ERROR` is
absorbing: every further event is itself unmatched and stays in `ERROR`. -/
theorem unmatched_dispatch_goes_to_error :
    (∀ (s : Mailbox.State) (e : Mailbox.Event),
      Mailbox.findTransition s e = none →
        Mailbox.dispatch s e = Mailbox.State.ERROR) ∧
    (∀ e, Mailbox.dispatch Mailbox.State.ERROR e = Mailbox.State.ERROR) := by
  constructor
  · intro s e h
    simp [Mailbox.dispatch, h]
  · decide

/-- Witness for C8 (amended): the unmatched pair `(KEYED, HandshakeRecieved)`
dispatches to `ERROR`. -/
theorem unmatched_dispatch_goes_to_error_witness :
    Mailbox.dispatch Mailbox.State.KEYED Mailbox.Event.HandshakeRecieved =
      Mailbox.State.ERROR :=
  unmatched_dispatch_goes_to_error.1 _ _ (by decide)

/-- Counterexample to C9 as stated: after `close()` on a live connection the
`onmessage` handler is still attached (so not ALL handlers are detached), and
a `close()` issued while the machine is reconnecting (`this.ws === null`,
reconnect timer pending) changes nothing — the pending timer later opens a
fresh connection, i.e. an automatic reconnection attempt after `close()`. -/
theorem close_counterexample :
    (Mailbox.close ⟨some ⟨true, true, true, true, false⟩, false⟩).ws =
      some ⟨false, false, false, true, true⟩ ∧
    Mailbox.close ⟨none, true⟩ = (⟨none, true⟩ : Mailbox.Conn) ∧
    (Mailbox.reconnectTimerFires (Mailbox.close ⟨none, true⟩)).ws ≠ none := by
  refine ⟨rfl, rfl, by decide⟩

/-- Claim C9 (amended): `close()` detaches the open/close/error handlers of a
live connection and closes it, which stops the stale connection from driving
the state machine (and hence from triggering reconnection through its
close/error events); but the `onmessage` handler stays attached, `close()` is
a no-op while the handle is null (during reconnect backoff), and the
pending-reconnect flag is never cleared by `close()`. -/
theorem close_spec (c : Mailbox.Conn) :
    (∀ w, c.ws = some w →
      Mailbox.close c = ⟨some ⟨false, false, false, w.onmessage, true⟩, c.reconnectPending⟩) ∧
    (c.ws = none → Mailbox.close c = c) ∧
    (Mailbox.close c).reconnectPending = c.reconnectPending := by
  refine ⟨fun w hw => ?_, fun hn => ?_, ?_⟩
  · cases c
    cases hw
    rfl
  · cases c
    cases hn
    rfl
  · cases hc : c.ws <;> cases c <;> simp_all [Mailbox.close]

/-- Witness for C9 (amended): closing a fully-attached live connection
detaches exactly the three open/close/error handlers and marks the socket
closed, leaving `onmessage` attached and the reconnect flag untouched. -/
theorem close_spec_witness :
    Mailbox.close ⟨some ⟨true, true, true, true, false⟩, true⟩ =
      (⟨some ⟨false, false, false, true, true⟩, true⟩ : Mailbox.Conn) :=
  (close_spec _).1 _ rfl

/-! ## Lemmas: hex codec -/

lemma parseHexPair_byteToHex : ∀ b : Nat, b < 256 →
    parseHexPair (Nat.digitChar (b / 16)) (Nat.digitChar (b % 16)) = b := by
  decide

lemma toHex_data (b : Nat) (bs : List Nat) :
    (toHex (b :: bs)).data =
      Nat.digitChar (b / 16) :: Nat.digitChar (b % 16) :: (toHex bs).data := by
  simp [toHex, byteToHex, String.data_append]

lemma fromHex_toHex : ∀ (bs : List Nat), (∀ b ∈ bs, b < 256) →
    fromHex (toHex bs) = some bs := by
  intro bs
  induction bs with
  | nil => intro _; rfl
  | cons b bs ih =>
    intro h
    have hb : b < 256 := h b (by simp)
    have ihh : fromHex (toHex bs) = some bs := ih (fun x hx => h x (by simp [hx]))
    unfold fromHex at ihh ⊢
    rw [toHex_data]
    simp [fromHexChars, ihh, parseHexPair_byteToHex b hb]

/-! ## Claim theorems: hex codec -/

/-- Claim C10: `fromHex ∘ toHex` is the identity on byte buffers (entries
below 256, the `Uint8Array` element invariant), so every hex-encoded wire
field is losslessly decodable. -/
theorem hex_roundtrip (bs : List Nat) (h : ∀ b ∈ bs, b < 256) :
    fromHex (toHex bs) = some bs :=
  fromHex_toHex bs h

/-- Witness for C10: the codec round-trips a concrete buffer exercising the
low, middle and high byte values. -/
theorem hex_roundtrip_witness :
    fromHex (toHex [0, 1, 127, 128, 255]) = some [0, 1, 127, 128, 255] :=
  hex_roundtrip _ (by decide)

/-! ## Lemmas: commitment preimage -/

/-- Splitting at a separator known to be absent from both prefixes is
unambiguous. -/
lemma append_sep_inj {α : Type} (sep : α) :
    ∀ (m1 m2 r1 r2 : List α), sep ∉ m1 → sep ∉ m2 →
      m1 ++ sep :: r1 = m2 ++ sep :: r2 → m1 = m2 ∧ r1 = r2 := by
  intro m1
  induction m1 with
  | nil =>
    intro m2 r1 r2 _ hm2 heq
    cases m2 with
    | nil => simpa using heq
    | cons b t =>
      simp only [List.nil_append, List.cons_append, List.cons.injEq] at heq
      exact absurd (heq.1 ▸ List.mem_cons_self b t) hm2
  | cons a t ih =>
    intro m2 r1 r2 hm1 hm2 heq
    cases m2 with
    | nil =>
      simp only [List.nil_append, List.cons_append, List.cons.injEq] at heq
      exact absurd (heq.1 ▸ List.mem_cons_self a t) hm1
    | cons b t2 =>
      simp only [List.cons_append, List.cons.injEq] at heq
      obtain ⟨rfl, heq2⟩ := heq
      have hr := ih t2 r1 r2 (fun hx => hm1 (List.mem_cons_of_mem _ hx))
        (fun hx => hm2 (List.mem_cons_of_mem _ hx)) heq2
      exact ⟨by rw [hr.1], hr.2⟩

lemma commitmentPreimage_data (m r : String) :
    (commitmentPreimage m r).data = m.data ++ '\n' :: r.data := by
  simp [commitmentPreimage, String.data_append]

/-! ## Claim theorems: commitment function -/

/-- Counterexample to C3 as stated: the delimiter-joined preimages of the two
distinct pairs ("a\nb", "c") and ("a", "b\nc") coincide (both are
"a\nb\nc"), so their commitments are equal under every hash function — in
particular under an injective one (here the identity). Messages containing
the delimiter break the claimed binding. -/
theorem calculateCommitment_collision :
    (("a\nb", "c") ≠ (("a", "b\nc") : String × String)) ∧
    Function.Injective (fun s : String => s) ∧
    calculateCommitment (fun s => s) "a\nb" "c" =
      calculateCommitment (fun s => s) "a" "b\nc" := by
  refine ⟨by decide, fun a b h => h, by decide⟩

/-- Claim C3 (amended): `calculateCommitment` is deterministic, and — with
the hash pipeline modelled as injective — it is binding for every pair whose
message does not contain the delimiter character `"\n"` (the random may be
arbitrary): equal commitments then force equal messages and randoms.
Pairs whose messages contain the delimiter can collide (see the
counterexample). -/
theorem calculateCommitment_deterministic_and_binding :
    (∀ (sha256hex : String → String) (m r : String),
      calculateCommitment sha256hex m r = calculateCommitment sha256hex m r) ∧
    (∀ sha256hex : String → String, Function.Injective sha256hex →
      ∀ m1 r1 m2 r2 : String, '\n' ∉ m1.data → '\n' ∉ m2.data →
        calculateCommitment sha256hex m1 r1 = calculateCommitment sha256hex m2 r2 →
          m1 = m2 ∧ r1 = r2) := by
  refine ⟨fun _ _ _ => rfl, fun sha256hex hinj m1 r1 m2 r2 hm1 hm2 heq => ?_⟩
  have hpre : commitmentPreimage m1 r1 = commitmentPreimage m2 r2 := hinj heq
  have hdata : m1.data ++ '\n' :: r1.data = m2.data ++ '\n' :: r2.data := by
    have hd := congrArg String.data hpre
    rw [commitmentPreimage_data, commitmentPreimage_data] at hd
    exact hd
  have hsplit := append_sep_inj '\n' m1.data m2.data r1.data r2.data hm1 hm2 hdata
  exact ⟨String.ext hsplit.1, String.ext hsplit.2⟩

/-- Witness for C3 (amended): two delimiter-free pairs with equal commitments
under the injective identity hash are forced equal. -/
theorem calculateCommitment_binding_witness :
    ("ab" : String) = "ab" ∧ ("cd" : String) = "cd" :=
  calculateCommitment_deterministic_and_binding.2 (fun s => s) (fun a b h => h)
    "ab" "cd" "ab" "cd" (by decide) (by decide) rfl

/-! ## Claim theorems: session encryption round-trip -/

/-- Claim C4: with the platform primitives behaving as their contracts state
at the values used — AES-GCM decryption inverts encryption under the same key
and nonce, the text codec and JSON codec invert serialization, and the two
orderings of the X25519 exchange derive the same key — `decryptMessage` under
one party's derived key inverts `encryptMessage` under the other party's
derived key. -/
theorem encrypt_decrypt_roundtrip {K M SK PK : Type}
    (aeadEnc : K → List Nat → List Nat → List Nat)
    (aeadDec : K → List Nat → List Nat → Option (List Nat))
    (stringify : M → String) (parseJson : String → Option M)
    (utf8 : String → List Nat) (utf8Dec : List Nat → Option String)
    (dh : PK → SK → K) (pub : SK → PK) (skA skB : SK)
    (iv : List Nat) (msg : M)
    (hdh : dh (pub skB) skA = dh (pub skA) skB)
    (haead : aeadDec (dh (pub skA) skB) iv
        (aeadEnc (dh (pub skA) skB) iv (utf8 (stringify msg))) =
      some (utf8 (stringify msg)))
    (hutf8 : utf8Dec (utf8 (stringify msg)) = some (stringify msg))
    (hparse : parseJson (stringify msg) = some msg)
    (hiv : ∀ b ∈ iv, b < 256)
    (hct : ∀ b ∈ aeadEnc (dh (pub skA) skB) iv (utf8 (stringify msg)), b < 256) :
    decryptMessage aeadDec parseJson utf8Dec (dh (pub skA) skB)
      (encryptMessage aeadEnc stringify utf8 (dh (pub skB) skA) iv msg) = some msg := by
  simp only [encryptMessage, decryptMessage, hdh]
  rw [fromHex_toHex iv hiv, fromHex_toHex _ hct]
  simp [haead, hutf8, hparse]

/-- Witness for C4: a concrete end-to-end round trip. Keys are numbers with
`dh p s = p * s` (so both orderings derive `15`), the AEAD is the identity
pair, the text codec maps characters to code points, and the payload is the
string "hi" with a 12-byte nonce. -/
theorem encrypt_decrypt_roundtrip_witness :
    decryptMessage (fun (_ : Nat) (_ : List Nat) (ct : List Nat) => some ct)
      (fun s => some s) (fun bs => some ⟨bs.map Char.ofNat⟩) (3 * 5)
      (encryptMessage (fun (_ : Nat) (_ : List Nat) (pt : List Nat) => pt)
        (fun s : String => s) (fun s => s.data.map Char.toNat) (5 * 3)
        [0, 1, 2, 3, 4, 5, 6, 7, 8, 9, 10, 11] "hi") = some "hi" :=
  encrypt_decrypt_roundtrip
    (fun (_ : Nat) (_ : List Nat) (pt : List Nat) => pt)
    (fun (_ : Nat) (_ : List Nat) (ct : List Nat) => some ct)
    (fun s : String => s) (fun s => some s)
    (fun s => s.data.map Char.toNat) (fun bs => some ⟨bs.map Char.ofNat⟩)
    (fun p s : Nat => p * s) (fun s : Nat => s) 3 5
    [0, 1, 2, 3, 4, 5, 6, 7, 8, 9, 10, 11] "hi"
    (by decide) rfl (by decide) rfl (by decide) (by decide)

end TwoPC
